import Mathlib

/-!
Shallow embedding of the task model of the hooky webhook scheduler
(models/task.go, here src/unnamed/part_002, and restapi/task.go), together
with theorems settling the frozen claims about task creation, lookup,
listing and attempt finalization.

The MongoDB collections are modelled as in-memory lists of records; an
atomic find-and-modify on a single matched document is modelled as
replacement of the first matching list element (mgo's Apply modifies the
first document matching the query).  Timestamps are Int: nanoseconds since
epoch for task.at, seconds for executed and the last_* fields.  The cron
library (github.com/robfig/cron, an external dependency) is abstracted as
an environment field mapping a cron expression to the next firing time in
UnixNano, none standing for a parse error.
-/

namespace Hooky

/-- HTTP basic-auth credentials carried by a task (models.HTTPAuth; its Go
file is not under src/, the spec describes it as optional
username/password). -/
structure HTTPAuth where
  username : String
  password : String
deriving Repr, DecidableEq, Inhabited

/-- Retry policy embedded in a task (models.Retry; declared in a Go file
not under src/, but its fields maxAttempts, factor, min, max, attempts are
fixed by their uses in src/unnamed/part_002 and by spec section 3). -/
structure Retry where
  maxAttempts : Int
  factor : Int
  min : Int
  max : Int
  attempts : Int
deriving Repr, DecidableEq, Inhabited

/-- Task document, field for field after the Go struct models.Task in
src/unnamed/part_002.  The Go field At is named «at» (at is a Lean
keyword). -/
structure Task where
  id : Nat
  account : Nat
  application : String
  name : String
  queue : String
  url : String
  auth : HTTPAuth
  method : String
  headers : List (String × String)
  payload : String
  schedule : String
  «at» : Int
  status : String
  executed : Int
  active : Bool
  errors : Int
  lastError : Int
  lastSuccess : Int
  executions : Int
  retry : Retry
  deleted : Bool
deriving Repr, DecidableEq, Inhabited

/-- Attempt document (models.Attempt; its Go file is not under src/).
Only the fields the claims touch are carried: identity, foreign keys,
due time, status and the soft-delete flag, after spec section 3. -/
structure Attempt where
  id : Nat
  task : Nat
  account : Nat
  application : String
  queue : String
  «at» : Int
  status : String
  deleted : Bool
deriving Repr, DecidableEq, Inhabited

/-- State of the document store: the tasks and attempts collections plus a
counter supplying fresh ObjectIds (bson.NewObjectId). -/
structure DB where
  tasks : List Task
  attempts : List Attempt
  nextID : Nat
deriving Repr, DecidableEq, Inhabited

/-- Environment: the current wall clock in UnixNano and the cron library.
cronNext s is the next firing time of cron expression s at or after now
(sched.Next(time.Now().UTC()).UnixNano()), none when cron.Parse fails. -/
structure Env where
  now : Int
  cronNext : String → Option Int

/-- TaskStatuses from src/unnamed/part_002: the valid task statuses (the
Go map with value true on exactly these keys). -/
def TaskStatuses : List String :=
  ["pending", "retrying", "canceled", "success", "error"]

/-- ErrorRate from src/unnamed/part_002: errors × 100 / executions, 0 when
executions = 0. -/
def Task.ErrorRate (h : Task) : Int :=
  if h.executions = 0 then 0 else h.errors * 100 / h.executions

/-- nextRun from src/unnamed/part_002: parse the cron expression and
return the next firing after now; a parse error aborts. -/
def nextRun (env : Env) (schedule : String) : Except Unit Int :=
  match env.cronNext schedule with
  | none => .error ()
  | some t => .ok t

/-- Modelled from the spec: models/retry.go is not under src/.  Spec
section 4.2: nextDelay(attempts) = clamp(min × factor^attempts, min, max)
in integer seconds. -/
def Retry.nextDelay (r : Retry) : Int :=
  Max.max r.min (Min.min (r.min * r.factor ^ r.attempts.toNat) r.max)

/-- Modelled from the spec: models/retry.go is not under src/.  Spec
section 4.2: NextAttempt(now) returns now + nextDelay(attempts) iff
attempts < maxAttempts (equivalently attempts + 1 ≤ maxAttempts), else
signals retry exhausted; now is UnixNano so the delay in seconds is scaled
by 10^9.  The Go function returns a pair (int64, error); the Bool is true
on success, and on the error path the int64 is the zero value, per the
caller's use in src/unnamed/part_002 where the returned value is assigned
to at unconditionally. -/
def Retry.NextAttempt (r : Retry) (now : Int) : Int × Bool :=
  if r.attempts < r.maxAttempts then (now + r.nextDelay * 1000000000, true)
  else (0, false)

/-- Modelled from the spec: models/attempt.go is not under src/.  Spec
section 4.1: create a fresh pending attempt at the task's at on the task's
queue.  Returns the new store and the created attempt. -/
def NewAttempt (db : DB) (task : Task) : DB × Attempt :=
  let a : Attempt :=
    { id := db.nextID, task := task.id, account := task.account,
      application := task.application, queue := task.queue, «at» := task.«at»,
      status := "pending", deleted := false }
  ({ db with attempts := db.attempts ++ [a], nextID := db.nextID + 1 }, a)

/-- Number of pending attempts of a task held in the store. -/
def pendingAttempts (db : DB) (taskID : Nat) : Nat :=
  (db.attempts.filter fun a => a.task == taskID && a.status == "pending").length

/-- Whether the store holds a pending or reserved attempt of the task. -/
def hasOpenAttempt (db : DB) (taskID : Nat) : Bool :=
  db.attempts.any fun a =>
    a.task == taskID && (a.status == "pending" || a.status == "reserved")

/-- Per-attempt write of the cancellation: status canceled on the task's
attempts whose status is pending or reserved, all others untouched. -/
def cancelPending (taskID : Nat) (a : Attempt) : Attempt :=
  if a.task == taskID && (a.status == "pending" || a.status == "reserved")
  then { a with status := "canceled" } else a

/-- Modelled from the spec: models/attempt.go is not under src/.  Spec
section 4.3: cancellation of pending attempts, invoked on task replace, is
a direct write of status canceled gated on status pending or reserved,
restricted to the task's attempts.  The Bool result reports whether any
attempt was canceled; the caller in src/unnamed/part_002 binds it to a
variable named deleted and creates the fresh attempt only when it is
true. -/
def DeletePendingAttempts (db : DB) (taskID : Nat) : DB × Bool :=
  ({ db with attempts := db.attempts.map (cancelPending taskID) },
   hasOpenAttempt db taskID)

/-- Replacement of the first list element satisfying p, how a mongo
find-and-modify on a uniquely matched document acts on a collection. -/
def replaceFirst (p : Task → Bool) (new : Task) : List Task → List Task
  | [] => []
  | t :: ts => if p t then new :: ts else t :: replaceFirst p new ts

/-- Key predicate of the unique index on tasks: account, application,
name (src/unnamed/part_002, EnsureTaskIndex and the upsert query). -/
def taskKey (account : Nat) (application name : String) (t : Task) : Bool :=
  t.account == account && t.application == application && t.name == name

/-- NewTask from src/unnamed/part_002, line for line: defaults for name,
queue, method, payload and retry; at from the cron schedule (a parse error
aborts before any store write) or now; insert, and on a unique-index
conflict a find-and-modify of the existing row plus cancellation of its
pending attempts, the fresh attempt being created only when some attempt
was canceled; on a plain insert the fresh attempt is always created. -/
def NewTask (env : Env) (db : DB) (account : Nat)
    (application name queue url : String) (auth : HTTPAuth) (method : String)
    (headers : List (String × String)) (payload schedule : String)
    (retry : Retry) (active : Bool) : Except Unit (DB × Task) :=
  let taskID := db.nextID
  let name := if name = "" then toString taskID else name
  let queue := if queue = "" then "default" else queue
  let method := if method = "" then "POST" else method
  let payload := if method ≠ "POST" then "" else payload
  match (if schedule ≠ "" then nextRun env schedule else .ok env.now) with
  | .error e => .error e
  | .ok a =>
    let retry : Retry :=
      { maxAttempts := if retry.maxAttempts = 0 then 10 else retry.maxAttempts,
        factor := if retry.factor = 0 then 2 else retry.factor,
        min := if retry.min = 0 then 10 else retry.min,
        max := if retry.max = 0 then 300 else retry.max,
        attempts := retry.attempts }
    let task : Task :=
      { id := taskID, account := account, application := application,
        queue := queue, name := name, url := url, auth := auth,
        method := method, headers := headers, payload := payload,
        schedule := schedule, «at» := a, status := "pending",
        executed := 0, active := decide (0 < a) && active, errors := 0,
        lastError := 0, lastSuccess := 0, executions := 0, retry := retry,
        deleted := false }
    match db.tasks.find? (taskKey account application name) with
    | some old =>
      let updated : Task :=
        { old with
          url := task.url, method := task.method,
          headers := task.headers, payload := task.payload,
          «at» := task.«at», active := decide (0 < task.«at») && active,
          schedule := task.schedule, retry := task.retry,
          auth := task.auth, deleted := false }
      let db : DB :=
        { db with
          tasks := replaceFirst (taskKey account application name) updated db.tasks,
          nextID := db.nextID + 1 }
      match DeletePendingAttempts db updated.id with
      | (db, true) => .ok ((NewAttempt db updated).1, updated)
      | (db, false) => .ok (db, updated)
    | none =>
      let db : DB :=
        { db with tasks := db.tasks ++ [task], nextID := db.nextID + 1 }
      .ok ((NewAttempt db task).1, task)

/-- GetTask from src/unnamed/part_002: first task matching account,
application, name and deleted false; none when not found. -/
def GetTask (db : DB) (account : Nat) (application name : String) :
    Option Task :=
  db.tasks.find? fun t =>
    taskKey account application name t && t.deleted == false

/-- GetTaskByID from src/unnamed/part_002: first task with the given id;
the query has no condition on the deleted flag. -/
def GetTaskByID (db : DB) (taskID : Nat) : Option Task :=
  db.tasks.find? fun t => t.id == taskID

/-- Query predicate built by GetTasks in src/unnamed/part_002: base
conditions account, application, deleted false; a schedule filter "true"
or "false" constrains the schedule to non-empty or empty and any other
value adds no condition; a status filter adds an equality condition only
when its value is one of TaskStatuses, otherwise it is ignored. -/
def getTasksQuery (account : Nat) (application : String)
    (filters : List (String × String)) (t : Task) : Bool :=
  t.account == account && t.application == application && t.deleted == false
  && (match filters.lookup "schedule" with
      | some v =>
        if v = "true" then t.schedule != ""
        else if v = "false" then t.schedule == ""
        else true
      | none => true)
  && (match filters.lookup "status" with
      | some v => if TaskStatuses.contains v then t.status == v else true
      | none => true)

/-- GetTasks from src/unnamed/part_002.  The paging helper getItems is not
under src/; modelled from the spec store contract (ListPaginated returns
the documents matching the predicate; pagination itself is elided, the
full matching list is returned). -/
def GetTasks (db : DB) (account : Nat) (application : String)
    (filters : List (String × String)) : List Task :=
  db.tasks.filter (getTasksQuery account application filters)

/-- NextAttemptForTask from src/unnamed/part_002: load the task by id; a
cron next-fire is computed first when the task is active with a non-empty
schedule; on an error outcome that value is overwritten by the retry
policy's answer (status becoming retrying when retries remain, the zero
value when exhausted), on a success outcome retry.attempts is reset by
incrementing with its negation; one find-and-modify then sets status,
executed, the last_status field, at and active = (at > 0) while
incrementing the counters, and a fresh attempt is created exactly when the
new row is active with a non-zero at and not deleted.

The mongo update writes the document key last_ concatenated with the final
status; only last_error and last_success are fields of models.Task, any
other key (such as last_retrying after the override) lands in the document
outside the struct, so on this row model exactly those two fields can
change.  The key updated likewise has no struct field and is elided. -/
def NextAttemptForTask (env : Env) (db : DB) (taskID : Nat)
    (status : String) : Except Unit (DB × Task × Option Attempt) :=
  match db.tasks.find? (fun t => t.id == taskID) with
  | none => .error ()
  | some task =>
    let atCron : Int :=
      if task.active && task.schedule != "" then
        match env.cronNext task.schedule with
        | some t => t
        | none => 0
      else 0
    let now := env.now
    let errors : Int := if status = "error" then 1 else 0
    let retryAttempts : Int :=
      if status = "error" then 1
      else if status = "success" then -task.retry.attempts
      else 1
    let (a, status) :=
      if status = "error" then
        match task.retry.NextAttempt now with
        | (v, true) => (v, "retrying")
        | (v, false) => (v, status)
      else (atCron, status)
    let nowU := now / 1000000000
    let newTask : Task :=
      { task with
        status := status,
        executed := nowU,
        lastError := if status = "error" then nowU else task.lastError,
        lastSuccess := if status = "success" then nowU else task.lastSuccess,
        «at» := a,
        active := decide (0 < a),
        executions := task.executions + 1,
        errors := task.errors + errors,
        retry :=
          { task.retry with attempts := task.retry.attempts + retryAttempts } }
    let db2 : DB :=
      { db with
        tasks := replaceFirst (fun t => t.id == taskID) newTask db.tasks }
    if newTask.active && newTask.«at» != 0 && !newTask.deleted then
      let p := NewAttempt db2 newTask
      .ok (p.1, newTask, some p.2)
    else
      .ok (db2, newTask, none)

/-- Fields of the REST Task JSON body that PutTask in src/restapi/task.go
forwards to models.NewTask.  Active is a pointer in Go (nil when the body
omits the field), hence an Option. -/
structure RestTask where
  queue : String
  url : String
  auth : HTTPAuth
  method : String
  headers : List (String × String)
  payload : String
  schedule : String
  retry : Retry
  active : Option Bool
deriving Repr, DecidableEq, Inhabited

/-- PutTask from src/restapi/task.go, lines 125 to 150: an absent active
field in the body is requested as true, an explicit value is passed
through unchanged; the handler then calls models.NewTask with the path
parameters and the body fields. -/
def PutTask (env : Env) (db : DB) (accountID : Nat)
    (applicationName taskName : String) (rt : RestTask) :
    Except Unit (DB × Task) :=
  let active := match rt.active with
    | none => true
    | some b => b
  NewTask env db accountID applicationName taskName rt.queue rt.url rt.auth
    rt.method rt.headers rt.payload rt.schedule rt.retry active

/-- Task row returned by a successful NextAttemptForTask call, the object
of the claims about attempt finalization. -/
def finalizedTask (env : Env) (db : DB) (taskID : Nat) (status : String) :
    Option Task :=
  (NextAttemptForTask env db taskID status).toOption.map fun p => p.2.1

/-- Extraction of a successful result, for concrete instances. -/
def okOf {α : Type} [Inhabited α] (r : Except Unit α) : α :=
  r.toOption.getD default

/-- Empty basic-auth credentials for concrete instances. -/
def auth0 : HTTPAuth := { username := "", password := "" }

/-- Retry policy with the documented defaults and no attempts yet. -/
def retry0 : Retry :=
  { maxAttempts := 10, factor := 2, min := 10, max := 300, attempts := 0 }

/-- Retry policy whose budget is exhausted: attempts = maxAttempts. -/
def retryX : Retry :=
  { maxAttempts := 2, factor := 1, min := 1, max := 1, attempts := 2 }

/-- All-zero retry parameters, exercising the defaults. -/
def retryZ : Retry :=
  { maxAttempts := 0, factor := 0, min := 0, max := 0, attempts := 0 }

/-- Concrete environment: clock at 5 s past epoch; the only valid cron
expression is the every-minute one, firing next at 60 s. -/
def envA : Env :=
  { now := 5000000000,
    cronNext := fun s => if s = "* * * * *" then some 60000000000 else none }

/-- A finished one-shot task occupying key (7, "app", "n"): success, not
active, at 0. -/
def task0 : Task :=
  { id := 1, account := 7, application := "app", name := "n", queue := "q",
    url := "http://h/ok", auth := auth0, method := "POST", headers := [],
    payload := "x", schedule := "", «at» := 0, status := "success",
    executed := 4, active := false, errors := 0, lastError := 0,
    lastSuccess := 4, executions := 1, retry := retry0, deleted := false }

/-- Store holding only task0 and no attempts at all. -/
def db0 : DB := { tasks := [task0], attempts := [], nextID := 2 }

/-- An active cron task whose retry budget is exhausted. -/
def taskX : Task :=
  { task0 with
    schedule := "* * * * *", «at» := 60000000000, status := "pending",
    active := true, retry := retryX }

/-- Store holding only taskX. -/
def dbX : DB := { tasks := [taskX], attempts := [], nextID := 2 }

/-- An active one-shot task with retries remaining and a recorded
last-error time of 3 s. -/
def taskY : Task :=
  { task0 with
    «at» := 100, status := "pending", active := true, lastError := 3 }

/-- Store holding only taskY. -/
def dbY : DB := { tasks := [taskY], attempts := [], nextID := 2 }

/-- A soft-deleted task. -/
def taskD : Task := { task0 with deleted := true }

/-- Store holding only the soft-deleted taskD. -/
def dbD : DB := { tasks := [taskD], attempts := [], nextID := 2 }

/-- A live pending task occupying key (7, "app", "n"). -/
def taskP : Task :=
  { task0 with «at» := 50, status := "pending", active := true }

/-- The pending attempt of taskP. -/
def attP : Attempt :=
  { id := 9, task := 1, account := 7, application := "app", queue := "q",
    «at» := 50, status := "pending", deleted := false }

/-- Store holding taskP together with its pending attempt. -/
def dbP : DB := { tasks := [taskP], attempts := [attP], nextID := 10 }

/-- Concrete run of NewTask exercising every default: empty name, queue
and method, all-zero retry parameters, no schedule. -/
def resW7 : DB × Task :=
  okOf (NewTask envA db0 7 "app" "" "" "http://u" auth0 "" [] "p" "" retryZ
    true)

/-- REST body that omits the active field. -/
def rtNoActive : RestTask :=
  { queue := "", url := "http://u", auth := auth0, method := "", headers := [],
    payload := "p", schedule := "", retry := retryZ, active := none }

/-- REST body with an explicit active = false. -/
def rtInactive : RestTask :=
  { rtNoActive with active := some false }

/-- Concrete run of PutTask with a body omitting active. -/
def resW10 : DB × Task := okOf (PutTask envA db0 7 "app" "m" rtNoActive)

/-- Helper: whenever the first-run-time computation succeeds, NewTask
succeeds, and the returned row carries that time together with the active
flag derived from it. -/
theorem NewTask_ok_of_at (env : Env) (db : DB) (account : Nat)
    (application name queue url : String) (auth : HTTPAuth) (method : String)
    (headers : List (String × String)) (payload schedule : String)
    (retry : Retry) (active : Bool) (a : Int)
    (hat : (if schedule ≠ "" then nextRun env schedule else .ok env.now) =
      .ok a) :
    ∃ db' t',
      NewTask env db account application name queue url auth method headers
          payload schedule retry active = .ok (db', t') ∧
      t'.«at» = a ∧ t'.active = (decide (0 < a) && active) := by
  unfold NewTask
  rw [hat]
  dsimp only
  split
  · simp only [DeletePendingAttempts]
    split
    · exact ⟨_, _, rfl, rfl, rfl⟩
    · exact ⟨_, _, rfl, rfl, rfl⟩
  · exact ⟨_, _, rfl, rfl, rfl⟩

/-- Helper: NewTask reports a validation error exactly when the schedule
is non-empty and fails to parse; the error occurs before any store
write. -/
theorem NewTask_error_iff (env : Env) (db : DB) (account : Nat)
    (application name queue url : String) (auth : HTTPAuth) (method : String)
    (headers : List (String × String)) (payload schedule : String)
    (retry : Retry) (active : Bool) :
    NewTask env db account application name queue url auth method headers
        payload schedule retry active = .error () ↔
      schedule ≠ "" ∧ env.cronNext schedule = none := by
  constructor
  · intro h
    by_cases hs : schedule = ""
    · obtain ⟨db', t', heq, -, -⟩ :=
        NewTask_ok_of_at env db account application name queue url auth
          method headers payload schedule retry active env.now (by simp [hs])
      rw [heq] at h
      simp at h
    · cases hc : env.cronNext schedule with
      | none => exact ⟨hs, rfl⟩
      | some v =>
          obtain ⟨db', t', heq, -, -⟩ :=
            NewTask_ok_of_at env db account application name queue url auth
              method headers payload schedule retry active v
              (by simp [hs, nextRun, hc])
          rw [heq] at h
          simp at h
  · rintro ⟨hs, hc⟩
    unfold NewTask
    rw [if_pos hs, show nextRun env schedule = .error () from by
      simp [nextRun, hc]]

/-- Helper: on any successful NewTask call, the stored active flag is the
conjunction of (at > 0) with the requested active argument, on both the
insert and the upsert path. -/
theorem NewTask_active_of_ok (env : Env) (db : DB) (account : Nat)
    (application name queue url : String) (auth : HTTPAuth) (method : String)
    (headers : List (String × String)) (payload schedule : String)
    (retry : Retry) (active : Bool) (db' : DB) (t' : Task)
    (hok : NewTask env db account application name queue url auth method
      headers payload schedule retry active = .ok (db', t')) :
    t'.active = (decide (0 < t'.«at») && active) := by
  cases hat : (if schedule ≠ "" then nextRun env schedule else .ok env.now) with
  | error e =>
      have herr : NewTask env db account application name queue url auth
          method headers payload schedule retry active = .error e := by
        unfold NewTask
        rw [hat]
      rw [herr] at hok
      simp at hok
  | ok a =>
      obtain ⟨db₁, t₁, heq, hat', hact⟩ :=
        NewTask_ok_of_at env db account application name queue url auth
          method headers payload schedule retry active a hat
      rw [heq] at hok
      simp only [Except.ok.injEq, Prod.mk.injEq] at hok
      obtain ⟨-, ht⟩ := hok
      subst ht
      rw [hact, hat']

/-- Helper: extracting the task component of a conditional pair of
successful results ignores the condition. -/
theorem okPairProj {c : Prop} [Decidable c] (x y : DB) (t : Task)
    (oa ob : Option Attempt) :
    ((if c then Except.ok (x, t, oa) else Except.ok (y, t, ob) :
        Except Unit (DB × Task × Option Attempt)).toOption.map
      fun p => p.2.1) = some t := by
  split <;> rfl

/-- Helper: the row written by NextAttemptForTask always carries
active = (at > 0). -/
theorem finalizedTask_active (env : Env) (db : DB) (taskID : Nat)
    (status : String) (t' : Task)
    (h : finalizedTask env db taskID status = some t') :
    t'.active = decide (0 < t'.«at») := by
  unfold finalizedTask NextAttemptForTask at h
  cases hf : db.tasks.find? (fun t => t.id == taskID) with
  | none => rw [hf] at h; simp [Except.toOption] at h
  | some task =>
      rw [hf] at h
      dsimp only at h
      rw [okPairProj] at h
      injection h with h
      subst h
      rfl

/-- C5 (amended): a task found by GetTask always has deleted = false, so
soft-deleted tasks are invisible to GetTask; GetTaskByID carries no
condition on the deleted flag and returns the task found by id even when
it is soft-deleted. -/
theorem C5_deleted_lookup (db : DB) (account : Nat)
    (application name : String) (taskID : Nat) (task : Task)
    (hfind : db.tasks.find? (fun t => t.id == taskID) = some task) :
    (∀ t, GetTask db account application name = some t → t.deleted = false) ∧
    GetTaskByID db taskID = some task := by
  constructor
  · intro t ht
    unfold GetTask at ht
    have h := List.find?_some ht
    simp only [taskKey, Bool.and_eq_true, beq_iff_eq] at h
    exact h.2
  · unfold GetTaskByID
    exact hfind

/-- C5 witness: on the store holding the soft-deleted taskD, GetTask hides
it while GetTaskByID returns it. -/
theorem C5_witness :
    (∀ t, GetTask dbD 7 "app" "n" = some t → t.deleted = false) ∧
    GetTaskByID dbD 1 = some taskD :=
  C5_deleted_lookup dbD 7 "app" "n" 1 taskD (by decide)

/-- C5 counterexample: the claim demands that GetTaskByID, like GetTask,
return absent for a deleted task; on this store the soft-deleted row is
returned by GetTaskByID. -/
theorem C5_counterexample :
    taskD.deleted = true ∧ GetTaskByID dbD 1 = some taskD ∧
    GetTask dbD 7 "app" "n" = none := by decide

/-- C6: NewTask computes the first run time as the cron next fire when a
schedule is given and as now otherwise, and it returns a validation error
exactly when a non-empty schedule fails to parse (the error precedes any
store write). -/
theorem C6_first_run (env : Env) (db : DB) (account : Nat)
    (application name queue url : String) (auth : HTTPAuth) (method : String)
    (headers : List (String × String)) (payload schedule : String)
    (retry : Retry) (active : Bool) :
    (NewTask env db account application name queue url auth method headers
        payload schedule retry active = .error () ↔
      schedule ≠ "" ∧ env.cronNext schedule = none) ∧
    (schedule = "" →
      ∀ db' t', NewTask env db account application name queue url auth method
          headers payload schedule retry active = .ok (db', t') →
        t'.«at» = env.now) ∧
    (∀ v, schedule ≠ "" → env.cronNext schedule = some v →
      ∀ db' t', NewTask env db account application name queue url auth method
          headers payload schedule retry active = .ok (db', t') →
        t'.«at» = v) := by
  refine ⟨NewTask_error_iff env db account application name queue url auth
    method headers payload schedule retry active, ?_, ?_⟩
  · intro hs db' t' hok
    obtain ⟨db₁, t₁, heq, hat', -⟩ :=
      NewTask_ok_of_at env db account application name queue url auth method
        headers payload schedule retry active env.now (by simp [hs])
    rw [heq] at hok
    simp only [Except.ok.injEq, Prod.mk.injEq] at hok
    obtain ⟨-, ht⟩ := hok
    subst ht
    exact hat'
  · intro v hs hc db' t' hok
    obtain ⟨db₁, t₁, heq, hat', -⟩ :=
      NewTask_ok_of_at env db account application name queue url auth method
        headers payload schedule retry active v (by simp [hs, nextRun, hc])
    rw [heq] at hok
    simp only [Except.ok.injEq, Prod.mk.injEq] at hok
    obtain ⟨-, ht⟩ := hok
    subst ht
    exact hat'

/-- C6 witness: with the every-minute schedule valid in envA, the stored
first run time is its next fire; the call itself succeeds. -/
theorem C6_witness :
    (okOf (NewTask envA db0 7 "app" "m" "q" "http://u" auth0 "POST" [] ""
        "* * * * *" retry0 true)).2.«at» = 60000000000 :=
  (C6_first_run envA db0 7 "app" "m" "q" "http://u" auth0 "POST" [] ""
      "* * * * *" retry0 true).2.2 60000000000 (by decide) (by decide) _ _ rfl

/-- C7: NewTask defaults an empty name to the fresh task id, an empty
queue to "default" (observable on the stored row whenever no unique-key
conflict occurs, since the upsert never touches the stored queue), an
empty method to "POST", clears the payload whenever the effective method
is not POST, and fills zero-valued retry parameters with maxAttempts 10,
factor 2, min 10 s, max 300 s. -/
theorem C7_defaults (env : Env) (db : DB) (account : Nat)
    (application name queue url : String) (auth : HTTPAuth) (method : String)
    (headers : List (String × String)) (payload schedule : String)
    (retry : Retry) (active : Bool) (db' : DB) (t' : Task)
    (hok : NewTask env db account application name queue url auth method
      headers payload schedule retry active = .ok (db', t')) :
    t'.name = (if name = "" then toString db.nextID else name) ∧
    (db.tasks.find? (taskKey account application
        (if name = "" then toString db.nextID else name)) = none →
      t'.queue = (if queue = "" then "default" else queue)) ∧
    t'.method = (if method = "" then "POST" else method) ∧
    t'.payload =
      (if (if method = "" then "POST" else method) ≠ "POST" then ""
       else payload) ∧
    t'.retry.maxAttempts =
      (if retry.maxAttempts = 0 then 10 else retry.maxAttempts) ∧
    t'.retry.factor = (if retry.factor = 0 then 2 else retry.factor) ∧
    t'.retry.min = (if retry.min = 0 then 10 else retry.min) ∧
    t'.retry.max = (if retry.max = 0 then 300 else retry.max) := by
  cases hat : (if schedule ≠ "" then nextRun env schedule else .ok env.now) with
  | error e =>
      have herr : NewTask env db account application name queue url auth
          method headers payload schedule retry active = .error e := by
        unfold NewTask
        rw [hat]
      rw [herr] at hok
      simp at hok
  | ok a =>
      unfold NewTask at hok
      rw [hat] at hok
      dsimp only at hok
      cases hf : db.tasks.find? (taskKey account application
          (if name = "" then toString db.nextID else name)) with
      | none =>
          rw [hf] at hok
          simp only [Except.ok.injEq, Prod.mk.injEq] at hok
          obtain ⟨-, ht⟩ := hok
          subst ht
          exact ⟨rfl, fun _ => rfl, rfl, rfl, rfl, rfl, rfl, rfl⟩
      | some old =>
          rw [hf] at hok
          simp only [DeletePendingAttempts] at hok
          have hname : old.name =
              (if name = "" then toString db.nextID else name) := by
            have h := List.find?_some hf
            simp only [taskKey, Bool.and_eq_true, beq_iff_eq] at h
            exact h.2
          split at hok <;>
          · simp only [Except.ok.injEq, Prod.mk.injEq] at hok
            obtain ⟨-, ht⟩ := hok
            subst ht
            exact ⟨hname, fun hnone => Option.noConfusion hnone,
              rfl, rfl, rfl, rfl, rfl, rfl⟩

/-- C7 witness: the concrete run resW7 with empty name, queue and method,
a non-POST-irrelevant payload and all-zero retry parameters receives every
default. -/
theorem C7_witness :
    resW7.2.name = "2" ∧ resW7.2.queue = "default" ∧
    resW7.2.method = "POST" ∧ resW7.2.payload = "p" ∧
    resW7.2.retry.maxAttempts = 10 ∧ resW7.2.retry.factor = 2 ∧
    resW7.2.retry.min = 10 ∧ resW7.2.retry.max = 300 := by
  have h := C7_defaults envA db0 7 "app" "" "" "http://u" auth0 "" [] "p" ""
    retryZ true resW7.1 resW7.2 rfl
  refine ⟨?_, ?_, ?_, ?_, ?_, ?_, ?_, ?_⟩
  · rw [h.1]; decide
  · rw [h.2.1 (by decide)]; decide
  · rw [h.2.2.1]; decide
  · rw [h.2.2.2.1]; decide
  · rw [h.2.2.2.2.1]; decide
  · rw [h.2.2.2.2.2.1]; decide
  · rw [h.2.2.2.2.2.2.1]; decide
  · rw [h.2.2.2.2.2.2.2]; decide

/-- C10: a PutTask body omitting the active field requests active = true,
so the stored flag equals (at > 0); an explicit value in the body is
passed through unchanged, the stored flag being (at > 0) and that
value. -/
theorem C10_put_active (env : Env) (db : DB) (accountID : Nat)
    (applicationName taskName : String) (rt : RestTask) (db' : DB)
    (t' : Task)
    (hok : PutTask env db accountID applicationName taskName rt =
      .ok (db', t')) :
    (rt.active = none → t'.active = decide (0 < t'.«at»)) ∧
    ∀ b, rt.active = some b → t'.active = (decide (0 < t'.«at») && b) := by
  unfold PutTask at hok
  constructor
  · intro hn
    rw [hn] at hok
    dsimp only at hok
    have h := NewTask_active_of_ok env db accountID applicationName taskName
      rt.queue rt.url rt.auth rt.method rt.headers rt.payload rt.schedule
      rt.retry true db' t' hok
    simpa using h
  · intro b hb
    rw [hb] at hok
    dsimp only at hok
    exact NewTask_active_of_ok env db accountID applicationName taskName
      rt.queue rt.url rt.auth rt.method rt.headers rt.payload rt.schedule
      rt.retry b db' t' hok

/-- C10 witness: the concrete PutTask run resW10, whose body omits active,
stores active = (at > 0). -/
theorem C10_witness :
    resW10.2.active = decide (0 < resW10.2.«at») :=
  (C10_put_active envA db0 7 "app" "m" rtNoActive resW10.1 resW10.2 rfl).1
    rfl

/-- C8: every task row written by NewTask (on the insert and on the upsert
path alike) and every row written by NextAttemptForTask satisfies the
invariant active implies at > 0. -/
theorem C8_active_invariant :
    (∀ (env : Env) (db : DB) (account : Nat)
        (application name queue url : String) (auth : HTTPAuth)
        (method : String) (headers : List (String × String))
        (payload schedule : String) (retry : Retry) (active : Bool)
        (db' : DB) (t' : Task),
      NewTask env db account application name queue url auth method headers
          payload schedule retry active = .ok (db', t') →
      t'.active = true → 0 < t'.«at») ∧
    (∀ (env : Env) (db : DB) (taskID : Nat) (status : String) (t' : Task),
      finalizedTask env db taskID status = some t' →
      t'.active = true → 0 < t'.«at») := by
  constructor
  · intro env db account application name queue url auth method headers
      payload schedule retry active db' t' hok hactive
    have h := NewTask_active_of_ok env db account application name queue url
      auth method headers payload schedule retry active db' t' hok
    rw [hactive] at h
    exact of_decide_eq_true ((Bool.and_eq_true _ _).mp h.symm).1
  · intro env db taskID status t' hfin hactive
    have h := finalizedTask_active env db taskID status t' hfin
    rw [hactive] at h
    exact of_decide_eq_true h.symm

/-- C8 witness: the row written by the concrete NewTask run resW7 is
active with a positive at. -/
theorem C8_witness : 0 < resW7.2.«at» :=
  C8_active_invariant.1 envA db0 7 "app" "" "" "http://u" auth0 "" [] "p" ""
    retryZ true resW7.1 resW7.2 rfl (by decide)

/-- C9 (amended): the status filter of GetTasks adds a status condition
only when its value is one of TaskStatuses and is silently ignored — with
no error and no constraint — otherwise; the schedule filter values "true"
and "false" select the tasks with a non-empty and with an empty cron
schedule respectively. -/
theorem C9_filters (db : DB) (account : Nat) (application : String)
    (v : String) :
    (TaskStatuses.contains v = false →
      GetTasks db account application [("status", v)] =
        db.tasks.filter fun t =>
          t.account == account && t.application == application &&
            t.deleted == false) ∧
    (TaskStatuses.contains v = true →
      GetTasks db account application [("status", v)] =
        db.tasks.filter fun t =>
          t.account == account && t.application == application &&
            t.deleted == false && t.status == v) ∧
    (GetTasks db account application [("schedule", "true")] =
      db.tasks.filter fun t =>
        t.account == account && t.application == application &&
          t.deleted == false && t.schedule != "") ∧
    (GetTasks db account application [("schedule", "false")] =
      db.tasks.filter fun t =>
        t.account == account && t.application == application &&
          t.deleted == false && t.schedule == "") := by
  refine ⟨?_, ?_, ?_, ?_⟩
  · intro hv
    have hv' : v ∉ TaskStatuses := by simpa using hv
    refine List.filter_congr fun t _ => ?_
    simp [getTasksQuery, List.lookup, hv']
  · intro hv
    have hv' : v ∈ TaskStatuses := by simpa using hv
    refine List.filter_congr fun t _ => ?_
    simp [getTasksQuery, List.lookup, hv']
  · refine List.filter_congr fun t _ => ?_
    simp [getTasksQuery, List.lookup]
  · refine List.filter_congr fun t _ => ?_
    simp [getTasksQuery, List.lookup]

/-- C9 witness: on db0, the unknown status value bogus is ignored and the
known value success is applied as an equality filter. -/
theorem C9_witness :
    (GetTasks db0 7 "app" [("status", "bogus")] =
      db0.tasks.filter fun t =>
        t.account == 7 && t.application == "app" && t.deleted == false) ∧
    (GetTasks db0 7 "app" [("status", "success")] =
      db0.tasks.filter fun t =>
        t.account == 7 && t.application == "app" && t.deleted == false &&
          t.status == "success") :=
  ⟨(C9_filters db0 7 "app" "bogus").1 (by decide),
   (C9_filters db0 7 "app" "success").2.1 (by decide)⟩

/-- C9 counterexample: the claim calls an unknown status value a
validation error propagated to the caller; the code ignores the filter and
the call succeeds, returning the task even though its status differs from
the filter value. -/
theorem C9_counterexample :
    GetTasks db0 7 "app" [("status", "bogus")] = [task0] ∧
    TaskStatuses.contains "bogus" = false ∧ task0.status ≠ "bogus" := by
  decide

/-- C2 (amended): on attempt finalization, an error outcome with retry
budget remaining sets at to now plus the retry delay and overrides the
status to retrying; an error outcome with the budget exhausted sets at to
0 and keeps status error — even when the task is active with a cron
schedule, whose next fire is computed but then overwritten; a success
outcome sets at to the cron next fire when the task was active with a
non-empty schedule and to 0 otherwise; and the new active flag equals
(at > 0). -/
theorem C2_next_at (env : Env) (db : DB) (taskID : Nat) (status : String)
    (task : Task)
    (hfind : db.tasks.find? (fun t => t.id == taskID) = some task)
    (hst : status = "error" ∨ status = "success") :
    ∃ t', finalizedTask env db taskID status = some t' ∧
      (status = "error" → task.retry.attempts + 1 ≤ task.retry.maxAttempts →
        t'.«at» = env.now + task.retry.nextDelay * 1000000000 ∧
        t'.status = "retrying") ∧
      (status = "error" → task.retry.maxAttempts < task.retry.attempts + 1 →
        t'.«at» = 0 ∧ t'.status = "error") ∧
      (status = "success" → task.active = true → task.schedule ≠ "" →
        t'.«at» = (env.cronNext task.schedule).getD 0) ∧
      (status = "success" → task.active = false ∨ task.schedule = "" →
        t'.«at» = 0) ∧
      t'.active = decide (0 < t'.«at») := by
  rcases hst with hst | hst <;> subst hst
  · obtain ⟨t', ht'⟩ :
        ∃ t', finalizedTask env db taskID "error" = some t' := by
      unfold finalizedTask NextAttemptForTask
      rw [hfind]
      dsimp only
      rw [okPairProj]
      exact ⟨_, rfl⟩
    have hfacts := ht'
    unfold finalizedTask NextAttemptForTask at hfacts
    rw [hfind] at hfacts
    dsimp only at hfacts
    rw [okPairProj] at hfacts
    injection hfacts with hfacts
    subst hfacts
    by_cases hr : task.retry.attempts < task.retry.maxAttempts
    · refine ⟨_, ht', ?_, ?_, ?_, ?_, ?_⟩
      · intro _ _
        constructor <;> simp [Retry.NextAttempt, hr]
      · intro _ h
        omega
      · intro h
        exact absurd h (by decide)
      · intro h
        exact absurd h (by decide)
      · rfl
    · refine ⟨_, ht', ?_, ?_, ?_, ?_, ?_⟩
      · intro _ h
        omega
      · intro _ _
        constructor <;> simp [Retry.NextAttempt, hr]
      · intro h
        exact absurd h (by decide)
      · intro h
        exact absurd h (by decide)
      · rfl
  · obtain ⟨t', ht'⟩ :
        ∃ t', finalizedTask env db taskID "success" = some t' := by
      unfold finalizedTask NextAttemptForTask
      rw [hfind]
      dsimp only
      rw [okPairProj]
      exact ⟨_, rfl⟩
    have hfacts := ht'
    unfold finalizedTask NextAttemptForTask at hfacts
    rw [hfind] at hfacts
    dsimp only at hfacts
    rw [okPairProj] at hfacts
    injection hfacts with hfacts
    subst hfacts
    refine ⟨_, ht', ?_, ?_, ?_, ?_, ?_⟩
    · intro h
      exact absurd h (by decide)
    · intro h
      exact absurd h (by decide)
    · intro _ ha hs
      simp [ha, hs, Option.getD]
      cases env.cronNext task.schedule <;> rfl
    · intro _ h
      rcases h with h | h <;> simp [h]
    · rfl

/-- C2 witness: on the store dbY, an error outcome with retries remaining
behaves as the amended claim describes. -/
theorem C2_witness :
    ∃ t', finalizedTask envA dbY 1 "error" = some t' ∧
      ("error" = "error" →
        taskY.retry.attempts + 1 ≤ taskY.retry.maxAttempts →
        t'.«at» = envA.now + taskY.retry.nextDelay * 1000000000 ∧
        t'.status = "retrying") ∧
      ("error" = "error" →
        taskY.retry.maxAttempts < taskY.retry.attempts + 1 →
        t'.«at» = 0 ∧ t'.status = "error") ∧
      ("error" = "success" → taskY.active = true → taskY.schedule ≠ "" →
        t'.«at» = (envA.cronNext taskY.schedule).getD 0) ∧
      ("error" = "success" → taskY.active = false ∨ taskY.schedule = "" →
        t'.«at» = 0) ∧
      t'.active = decide (0 < t'.«at») :=
  C2_next_at envA dbY 1 "error" taskY (by decide) (Or.inl rfl)

/-- C2 counterexample: on dbX the task is active with a valid cron
schedule whose next fire is 60000000000, its retry budget is exhausted and
the outcome is error; the claim demands at = nextCron(schedule, now) while
the code stores at = 0 (and so deactivates the task). -/
theorem C2_counterexample :
    taskX.active = true ∧ taskX.schedule ≠ "" ∧
    envA.cronNext taskX.schedule = some 60000000000 ∧
    taskX.retry.maxAttempts < taskX.retry.attempts + 1 ∧
    (finalizedTask envA dbX 1 "error").map (fun t => (t.«at», t.active)) =
      some (0, false) := by
  decide

/-- C3 (amended): the finalization update increments executions by one,
on error increments errors and retry.attempts by one, on success leaves
errors and resets retry.attempts to zero by adding the negation of its
previously read value, sets executed to the current time, sets
last_success on success, and sets last_error only when the retries are
exhausted — when retries remain the overridden status makes the update
write the unmapped document key last_retrying, leaving the
last_error field unchanged. -/
theorem C3_counters (env : Env) (db : DB) (taskID : Nat) (status : String)
    (task : Task)
    (hfind : db.tasks.find? (fun t => t.id == taskID) = some task)
    (hst : status = "error" ∨ status = "success") :
    ∃ t', finalizedTask env db taskID status = some t' ∧
      t'.executions = task.executions + 1 ∧
      t'.executed = env.now / 1000000000 ∧
      (status = "error" → t'.errors = task.errors + 1 ∧
        t'.retry.attempts = task.retry.attempts + 1) ∧
      (status = "success" → t'.errors = task.errors ∧
        t'.retry.attempts = task.retry.attempts + -task.retry.attempts ∧
        t'.retry.attempts = 0 ∧
        t'.lastSuccess = env.now / 1000000000) ∧
      (status = "error" → task.retry.maxAttempts < task.retry.attempts + 1 →
        t'.lastError = env.now / 1000000000) ∧
      (status = "error" → task.retry.attempts + 1 ≤ task.retry.maxAttempts →
        t'.lastError = task.lastError) := by
  rcases hst with hst | hst <;> subst hst
  · obtain ⟨t', ht'⟩ :
        ∃ t', finalizedTask env db taskID "error" = some t' := by
      unfold finalizedTask NextAttemptForTask
      rw [hfind]
      dsimp only
      rw [okPairProj]
      exact ⟨_, rfl⟩
    have hfacts := ht'
    unfold finalizedTask NextAttemptForTask at hfacts
    rw [hfind] at hfacts
    dsimp only at hfacts
    rw [okPairProj] at hfacts
    injection hfacts with hfacts
    subst hfacts
    by_cases hr : task.retry.attempts < task.retry.maxAttempts
    · refine ⟨_, ht', rfl, rfl, ?_, ?_, ?_, ?_⟩
      · intro _
        constructor <;> simp [Retry.NextAttempt, hr]
      · intro h
        exact absurd h (by decide)
      · intro _ h
        omega
      · intro _ _
        simp [Retry.NextAttempt, hr]
    · refine ⟨_, ht', rfl, rfl, ?_, ?_, ?_, ?_⟩
      · intro _
        constructor <;> simp [Retry.NextAttempt, hr]
      · intro h
        exact absurd h (by decide)
      · intro _ _
        simp [Retry.NextAttempt, hr]
      · intro _ h
        omega
  · obtain ⟨t', ht'⟩ :
        ∃ t', finalizedTask env db taskID "success" = some t' := by
      unfold finalizedTask NextAttemptForTask
      rw [hfind]
      dsimp only
      rw [okPairProj]
      exact ⟨_, rfl⟩
    have hfacts := ht'
    unfold finalizedTask NextAttemptForTask at hfacts
    rw [hfind] at hfacts
    dsimp only at hfacts
    rw [okPairProj] at hfacts
    injection hfacts with hfacts
    subst hfacts
    refine ⟨_, ht', rfl, rfl, ?_, ?_, ?_, ?_⟩
    · intro h
      exact absurd h (by decide)
    · intro _
      refine ⟨by simp, by simp, by simp, by simp⟩
    · intro h
      exact absurd h (by decide)
    · intro h
      exact absurd h (by decide)

/-- C3 witness: on dbY a success outcome increments executions, resets the
retry counter and stamps last_success. -/
theorem C3_witness :
    ∃ t', finalizedTask envA dbY 1 "success" = some t' ∧
      t'.executions = taskY.executions + 1 ∧
      t'.executed = envA.now / 1000000000 ∧
      ("success" = "error" → t'.errors = taskY.errors + 1 ∧
        t'.retry.attempts = taskY.retry.attempts + 1) ∧
      ("success" = "success" → t'.errors = taskY.errors ∧
        t'.retry.attempts = taskY.retry.attempts + -taskY.retry.attempts ∧
        t'.retry.attempts = 0 ∧
        t'.lastSuccess = envA.now / 1000000000) ∧
      ("success" = "error" →
        taskY.retry.maxAttempts < taskY.retry.attempts + 1 →
        t'.lastError = envA.now / 1000000000) ∧
      ("success" = "error" →
        taskY.retry.attempts + 1 ≤ taskY.retry.maxAttempts →
        t'.lastError = taskY.lastError) :=
  C3_counters envA dbY 1 "success" taskY (by decide) (Or.inr rfl)

/-- C3 counterexample: the claim demands last_error be stamped with the
current time (5 s) on every error outcome; with retries remaining the code
overrides the status to retrying first and writes last_retrying, so the
last_error field keeps its old value 3. -/
theorem C3_counterexample :
    taskY.retry.attempts + 1 ≤ taskY.retry.maxAttempts ∧
    envA.now / 1000000000 = 5 ∧ taskY.lastError = 3 ∧
    (finalizedTask envA dbY 1 "error").map
      (fun t => (t.lastError, t.status)) = some (3, "retrying") := by
  decide

/-- C4: after the finalization update a fresh pending attempt is created
exactly when the new row is active with a non-zero at and not deleted; the
created attempt is pending on the task's queue at the new at and is stored
with the result. -/
theorem C4_attempt_creation (env : Env) (db : DB) (taskID : Nat)
    (status : String) (task : Task)
    (hfind : db.tasks.find? (fun t => t.id == taskID) = some task) :
    ∃ db' t' oa,
      NextAttemptForTask env db taskID status = .ok (db', t', oa) ∧
      oa.isSome = (t'.active && t'.«at» != 0 && !t'.deleted) ∧
      ∀ a, oa = some a → a.status = "pending" ∧ a.task = t'.id ∧
        a.«at» = t'.«at» ∧ a.queue = t'.queue ∧ a ∈ db'.attempts := by
  have main : ∀ (db2 : DB) (t : Task) (c : Bool),
      c = (t.active && t.«at» != 0 && !t.deleted) →
      ∃ db' t' oa,
        (if c then
           Except.ok ((NewAttempt db2 t).1, t, some (NewAttempt db2 t).2)
         else Except.ok (db2, t, none) :
          Except Unit (DB × Task × Option Attempt)) = .ok (db', t', oa) ∧
        oa.isSome = (t'.active && t'.«at» != 0 && !t'.deleted) ∧
        ∀ a, oa = some a → a.status = "pending" ∧ a.task = t'.id ∧
          a.«at» = t'.«at» ∧ a.queue = t'.queue ∧ a ∈ db'.attempts := by
    intro db2 t c hc
    cases hc2 : c with
    | false =>
        refine ⟨db2, t, none, by simp,
          by simp only [Option.isSome_none]; rw [← hc]; exact hc2.symm, ?_⟩
        intro a ha
        exact Option.noConfusion ha
    | true =>
        refine ⟨(NewAttempt db2 t).1, t, some (NewAttempt db2 t).2, by simp,
          by simp only [Option.isSome_some]; rw [← hc]; exact hc2.symm, ?_⟩
        intro a ha
        injection ha with ha
        subst ha
        exact ⟨rfl, rfl, rfl, rfl, by simp [NewAttempt]⟩
  unfold NextAttemptForTask
  rw [hfind]
  dsimp only
  exact main _ _ _ rfl

/-- C4 witness: on dbY an error outcome with retries remaining leaves an
active row with a positive at, so a fresh pending attempt is created and
stored. -/
theorem C4_witness :
    ∃ db' t' oa,
      NextAttemptForTask envA dbY 1 "error" = .ok (db', t', oa) ∧
      oa.isSome = (t'.active && t'.«at» != 0 && !t'.deleted) ∧
      ∀ a, oa = some a → a.status = "pending" ∧ a.task = t'.id ∧
        a.«at» = t'.«at» ∧ a.queue = t'.queue ∧ a ∈ db'.attempts :=
  C4_attempt_creation envA dbY 1 "error" taskY (by decide)

/-- Helper: the cancellation write never leaves an attempt of the task in
pending status. -/
theorem cancelPending_not_pending (tid : Nat) (a : Attempt) :
    ((cancelPending tid a).task == tid &&
      (cancelPending tid a).status == "pending") = false := by
  unfold cancelPending
  cases ht : a.task == tid with
  | false => simp [ht]
  | true =>
      cases hp : a.status == "pending" with
      | true => simp [ht, hp]
      | false =>
          cases hr : a.status == "reserved" with
          | true => simp [ht, hp, hr]
          | false => simp [ht, hp, hr]

/-- Helper: after the cancellation write the task has no pending attempt
left among the rewritten attempts. -/
theorem cancelPending_filter (tid : Nat) (l : List Attempt) :
    (l.map (cancelPending tid)).filter
      (fun a => a.task == tid && a.status == "pending") = [] := by
  induction l with
  | nil => rfl
  | cons x xs ih => simp [cancelPending_not_pending, ih]

/-- Helper: the cancellation write sends every open attempt of the task to
its canceled version, which therefore belongs to the written list. -/
theorem cancelPending_mem (tid : Nat) (l : List Attempt) (a : Attempt)
    (ha : a ∈ l) (ht : a.task = tid)
    (hs : a.status = "pending" ∨ a.status = "reserved") :
    { a with status := "canceled" } ∈ l.map (cancelPending tid) := by
  refine List.mem_map.mpr ⟨a, ha, ?_⟩
  have hcond : (a.task == tid &&
      (a.status == "pending" || a.status == "reserved")) = true := by
    rcases hs with h | h <;> simp [ht, h]
  unfold cancelPending
  rw [if_pos hcond]

/-- C1 (amended): a NewTask call whose key collides with an existing task
updates that row in place — url, method, headers, payload, at, active,
schedule, retry and auth set, deleted cleared, the identity preserved —
and cancels every pending or reserved attempt of the task; a fresh pending
attempt is then created only when such an open attempt existed, in which
case exactly one pending attempt exists afterwards, the cancellation
preceding the creation; when the colliding task had no open attempt, no
fresh attempt is created and the task is left with no pending attempt. -/
theorem C1_upsert (env : Env) (db : DB) (account : Nat)
    (application name queue url : String) (auth : HTTPAuth) (method : String)
    (headers : List (String × String)) (payload schedule : String)
    (retry : Retry) (active : Bool) (old : Task) (a : Int)
    (hname : name ≠ "")
    (hfind : db.tasks.find? (taskKey account application name) = some old)
    (hat : (if schedule ≠ "" then nextRun env schedule else .ok env.now) =
      .ok a) :
    ∃ db' t',
      NewTask env db account application name queue url auth method headers
          payload schedule retry active = .ok (db', t') ∧
      t'.id = old.id ∧ t'.url = url ∧
      t'.method = (if method = "" then "POST" else method) ∧
      t'.headers = headers ∧
      t'.payload =
        (if (if method = "" then "POST" else method) ≠ "POST" then ""
         else payload) ∧
      t'.«at» = a ∧ t'.active = (decide (0 < a) && active) ∧
      t'.schedule = schedule ∧ t'.auth = auth ∧
      t'.retry =
        { maxAttempts :=
            if retry.maxAttempts = 0 then 10 else retry.maxAttempts,
          factor := if retry.factor = 0 then 2 else retry.factor,
          min := if retry.min = 0 then 10 else retry.min,
          max := if retry.max = 0 then 300 else retry.max,
          attempts := retry.attempts } ∧
      t'.deleted = false ∧
      db'.tasks = replaceFirst (taskKey account application name) t' db.tasks ∧
      (∀ a' ∈ db.attempts, a'.task = old.id →
        a'.status = "pending" ∨ a'.status = "reserved" →
        { a' with status := "canceled" } ∈ db'.attempts) ∧
      pendingAttempts db' old.id =
        (if hasOpenAttempt db old.id then 1 else 0) := by
  cases hres : NewTask env db account application name queue url auth method
      headers payload schedule retry active with
  | error e =>
      obtain ⟨db₁, t₁, heq, -, -⟩ :=
        NewTask_ok_of_at env db account application name queue url auth
          method headers payload schedule retry active a hat
      rw [heq] at hres
      simp at hres
  | ok p =>
      obtain ⟨db0, t0⟩ := p
      unfold NewTask at hres
      rw [hat] at hres
      dsimp only at hres
      rw [if_neg hname] at hres
      rw [hfind] at hres
      dsimp only at hres
      simp only [DeletePendingAttempts] at hres
      split at hres
      · rename_i h
        simp only [Prod.mk.injEq] at h
        obtain ⟨h1, h2⟩ := h
        subst h1
        have hopen : hasOpenAttempt db old.id = true := h2
        simp only [Except.ok.injEq, Prod.mk.injEq] at hres
        obtain ⟨hdb, ht⟩ := hres
        subst hdb
        subst ht
        refine ⟨_, _, rfl, rfl, rfl, rfl, rfl, rfl, rfl, rfl, rfl, rfl, rfl,
          rfl, rfl, ?_, ?_⟩
        · intro a' ha' hta hsa
          simp only [NewAttempt]
          exact List.mem_append_left _
            (cancelPending_mem old.id db.attempts a' ha' hta hsa)
        · rw [hopen]
          simp [pendingAttempts, NewAttempt, List.filter_append,
            cancelPending_filter]
      · rename_i h
        simp only [Prod.mk.injEq] at h
        obtain ⟨h1, h2⟩ := h
        subst h1
        have hopen : hasOpenAttempt db old.id = false := h2
        simp only [Except.ok.injEq, Prod.mk.injEq] at hres
        obtain ⟨hdb, ht⟩ := hres
        subst hdb
        subst ht
        refine ⟨_, _, rfl, rfl, rfl, rfl, rfl, rfl, rfl, rfl, rfl, rfl, rfl,
          rfl, rfl, ?_, ?_⟩
        · intro a' ha' hta hsa
          exact cancelPending_mem old.id db.attempts a' ha' hta hsa
        · rw [hopen]
          simp [pendingAttempts, cancelPending_filter]

/-- C1 witness: re-creating the live task of dbP (which owns one pending
attempt) updates the row in place, cancels the attempt and leaves exactly
one fresh pending attempt. -/
theorem C1_witness :
    ∃ db' t',
      NewTask envA dbP 7 "app" "n" "q" "http://h/new" auth0 "POST" [] "y" ""
          retry0 true = .ok (db', t') ∧
      t'.id = taskP.id ∧ t'.url = "http://h/new" ∧
      t'.method = (if "POST" = "" then "POST" else "POST") ∧
      t'.headers = ([] : List (String × String)) ∧
      t'.payload =
        (if (if "POST" = "" then "POST" else "POST") ≠ "POST" then ""
         else "y") ∧
      t'.«at» = 5000000000 ∧
      t'.active = (decide ((0 : Int) < 5000000000) && true) ∧
      t'.schedule = "" ∧ t'.auth = auth0 ∧
      t'.retry =
        { maxAttempts :=
            if retry0.maxAttempts = 0 then 10 else retry0.maxAttempts,
          factor := if retry0.factor = 0 then 2 else retry0.factor,
          min := if retry0.min = 0 then 10 else retry0.min,
          max := if retry0.max = 0 then 300 else retry0.max,
          attempts := retry0.attempts } ∧
      t'.deleted = false ∧
      db'.tasks = replaceFirst (taskKey 7 "app" "n") t' dbP.tasks ∧
      (∀ a' ∈ dbP.attempts, a'.task = taskP.id →
        a'.status = "pending" ∨ a'.status = "reserved" →
        { a' with status := "canceled" } ∈ db'.attempts) ∧
      pendingAttempts db' taskP.id =
        (if hasOpenAttempt dbP taskP.id then 1 else 0) :=
  C1_upsert envA dbP 7 "app" "n" "q" "http://h/new" auth0 "POST" [] "y" ""
    retry0 true taskP 5000000000 (by decide) (by decide) rfl

/-- C1 counterexample: the claim demands that after every colliding
NewTask call exactly one pending attempt exist; on db0 the colliding task
is a finished one with no open attempt, the row is updated (same id) but
no fresh attempt is created, leaving zero pending attempts. -/
theorem C1_counterexample :
    hasOpenAttempt db0 1 = false ∧
    ((NewTask envA db0 7 "app" "n" "q" "http://h/new" auth0 "POST" [] "y" ""
        retry0 true).toOption.map
      fun p => (p.2.id, pendingAttempts p.1 1)) = some (1, 0) := by
  decide

end Hooky
